import Mathlib

/-!
Verification of the loop-tracking engine `generate_loop` from
`src/loop_creator/generator.py`.

The Python floats are modelled as real numbers; Python's `int(round(x))`
(round-half-to-even on the real value) is modelled by `pyRound`.  The two
second-order trackers, the warm-up (pre-roll) loop and the recorded main
loop are translated directly from the source into structural recursion.
-/

namespace LoopCreator

open Real

noncomputable section

/-- Python's `round` to an integer: round-half-to-even (banker's rounding),
as used by `int(round(...))` in the generator. -/
def pyRound (x : ℝ) : ℤ :=
  if Int.fract x = 1 / 2 then (if ⌊x⌋ % 2 = 0 then ⌊x⌋ else ⌊x⌋ + 1) else round x

/-- The local `clamp` helper defined inside `generate_loop`. -/
def clamp (value lo hi : ℝ) : ℝ :=
  if value < lo then lo else if value > hi then hi else value

/-- The `LoopParams` dataclass, with its default field values. -/
@[ext] structure LoopParams where
  duration_seconds : ℝ := 2.0
  fps : ℤ := 60
  radius : ℝ := 100.0
  center_x : ℝ := 0.0
  center_y : ℝ := 0.0
  phase0_rad : ℝ := 0.0
  elasticidade : ℝ := 0.5
  fluidez : ℝ := 0.5
  inercia : ℝ := 0.5
  amolecimento : ℝ := 0.2
  loops : ℤ := 1
  pre_roll_loops : ℤ := 3

/-- The `LoopFrame` dataclass: one emitted frame. -/
@[ext] structure LoopFrame where
  index : ℕ
  time : ℝ
  x : ℝ
  y : ℝ
  travel_angle : ℝ
  orientation : ℝ
  scale_tangent : ℝ
  scale_normal : ℝ

/-- Mutable simulation state of `generate_loop`: the angle tracker
`(theta, theta_d)` and the orientation tracker `(psi, psi_d)`. -/
@[ext] structure SimState where
  theta : ℝ
  theta_d : ℝ
  psi : ℝ
  psi_d : ℝ

/-- A throwaway default frame, used with `List.getD`. -/
def dfFrame : LoopFrame := ⟨0, 0, 0, 0, 0, 0, 0, 0⟩

/-- `loops = max(1, int(params.loops))`. -/
def loopsEff (p : LoopParams) : ℤ := max 1 p.loops

/-- `fps = max(1, int(params.fps))`. -/
def fpsEff (p : LoopParams) : ℤ := max 1 p.fps

/-- `N = max(1, int(round(params.duration_seconds * fps)))`. -/
def Nframes (p : LoopParams) : ℕ :=
  (max 1 (pyRound (p.duration_seconds * (fpsEff p : ℝ)))).toNat

/-- `dt = 1.0 / fps`. -/
def dt (p : LoopParams) : ℝ := 1 / (fpsEff p : ℝ)

/-- `T = N * dt`. -/
def T (p : LoopParams) : ℝ := (Nframes p : ℝ) * dt p

/-- `omega_target = (2.0 * math.pi * loops) / T`. -/
def omegaTarget (p : LoopParams) : ℝ := (2 * π * (loopsEff p : ℝ)) / T p

/-- `zeta_pos = clamp(0.05 + 1.95 * params.fluidez, 0.05, 2.5)`. -/
def zetaPos (p : LoopParams) : ℝ := clamp (0.05 + 1.95 * p.fluidez) 0.05 2.5

/-- `omega_n_pos = omega_target * (0.5 + 3.0 * clamp(params.elasticidade, 0.0, 1.0))`. -/
def omegaNPos (p : LoopParams) : ℝ :=
  omegaTarget p * (0.5 + 3.0 * clamp p.elasticidade 0.0 1.0)

/-- `zeta_orient = clamp(0.05 + 1.95 * params.fluidez, 0.05, 2.5)`. -/
def zetaOrient (p : LoopParams) : ℝ := clamp (0.05 + 1.95 * p.fluidez) 0.05 2.5

/-- `omega_n_orient`, including its re-clamping into
`[omega_target * 0.15, omega_target * 4.0]`. -/
def omegaNOrient (p : LoopParams) : ℝ :=
  clamp (omegaTarget p * (2.0 - 1.8 * clamp p.inercia 0.0 1.0))
    (omegaTarget p * 0.15) (omegaTarget p * 4.0)

/-- `pre_loops = max(0, int(params.pre_roll_loops))`. -/
def preLoops (p : LoopParams) : ℤ := max 0 p.pre_roll_loops

/-- `pre_duration = (pre_loops / float(loops)) * T`. -/
def preDuration (p : LoopParams) : ℝ := ((preLoops p : ℝ) / (loopsEff p : ℝ)) * T p

/-- `pre_steps = int(round(pre_duration / dt))`. -/
def preSteps (p : LoopParams) : ℤ := pyRound (preDuration p / dt p)

/-- Initial tracker state: `theta = phase0_rad`, `theta_d = omega_target`,
`psi = theta + pi * 0.5`, `psi_d = theta_d`. -/
def initState (p : LoopParams) : SimState :=
  ⟨p.phase0_rad, omegaTarget p, p.phase0_rad + π * 0.5, omegaTarget p⟩

/-- The body of `step_once(t)`: advance both trackers by one semi-implicit
Euler step.  The angle tracker is updated first; the orientation target is
computed from the *updated* `theta`, exactly as in the source. -/
def stepOnce (p : LoopParams) (t : ℝ) (s : SimState) : SimState :=
  let theta_target := p.phase0_rad + omegaTarget p * t
  let theta_target_d := omegaTarget p
  let theta_dd := omegaNPos p * omegaNPos p * (theta_target - s.theta)
    + 2.0 * zetaPos p * omegaNPos p * (theta_target_d - s.theta_d)
  let theta_d := s.theta_d + theta_dd * dt p
  let theta := s.theta + theta_d * dt p
  let psi_target := theta + π * 0.5
  let psi_target_d := theta_d
  let psi_dd := omegaNOrient p * omegaNOrient p * (psi_target - s.psi)
    + 2.0 * zetaOrient p * omegaNOrient p * (psi_target_d - s.psi_d)
  let psi_d := s.psi_d + psi_dd * dt p
  let psi := s.psi + psi_d * dt p
  ⟨theta, theta_d, psi, psi_d⟩

/-- A `for` loop calling `step_once(t); t += dt` a fixed number of times. -/
def runSteps (p : LoopParams) : ℝ → ℕ → SimState → SimState
  | _, 0, s => s
  | t, k + 1, s => runSteps p (t + dt p) k (stepOnce p t s)

/-- State after the pre-roll: the warm-up loop runs `pre_steps` times from
`t = -pre_duration` when `pre_steps > 0`. -/
def warmState (p : LoopParams) : SimState :=
  if 0 < preSteps p then
    runSteps p (-preDuration p) (preSteps p).toNat (initState p)
  else initState p

/-- `v_mean = abs(params.radius * omega_target) + 1e-8`. -/
def vMean (p : LoopParams) : ℝ := |p.radius * omegaTarget p| + 1e-8

/-- `norm_speed = clamp((v - v_mean) / v_mean, -1.0, 1.0)` with
`v = abs(params.radius * theta_d)`. -/
def normSpeed (p : LoopParams) (s : SimState) : ℝ :=
  clamp ((|p.radius * s.theta_d| - vMean p) / vMean p) (-1.0) 1.0

/-- `stretch_gain = 0.6 * clamp(params.amolecimento, 0.0, 1.0)`. -/
def stretchGain (p : LoopParams) : ℝ := 0.6 * clamp p.amolecimento 0.0 1.0

/-- `stretch = clamp(stretch_gain * norm_speed, -0.9, 1.5)`. -/
def stretchVal (p : LoopParams) (s : SimState) : ℝ :=
  clamp (stretchGain p * normSpeed p s) (-0.9) 1.5

/-- `scale_tangent = clamp(1.0 + stretch, 0.4, 2.5)`. -/
def scaleTangent (p : LoopParams) (s : SimState) : ℝ :=
  clamp (1.0 + stretchVal p s) 0.4 2.5

/-- `scale_normal = clamp(1.0 / scale_tangent, 0.4, 2.5)`. -/
def scaleNormal (p : LoopParams) (s : SimState) : ℝ :=
  clamp (1 / scaleTangent p s) 0.4 2.5

/-- Assemble the `LoopFrame` appended at index `i`, time `t`,
from the freshly advanced state `s`. -/
def sampleFrame (p : LoopParams) (i : ℕ) (t : ℝ) (s : SimState) : LoopFrame :=
  ⟨i, t, p.center_x + p.radius * Real.cos s.theta,
    p.center_y + p.radius * Real.sin s.theta,
    s.theta, s.psi, scaleTangent p s, scaleNormal p s⟩

/-- The recorded main loop: `for i in range(N): step_once(t); append; t += dt`. -/
def mainLoop (p : LoopParams) : ℕ → ℝ → SimState → ℕ → List LoopFrame
  | _, _, _, 0 => []
  | i, t, s, k + 1 =>
    sampleFrame p i t (stepOnce p t s)
      :: mainLoop p (i + 1) (t + dt p) (stepOnce p t s) k

/-- `generate_loop(params)`: pre-roll, then record `N` frames from `t = 0`. -/
def generate_loop (p : LoopParams) : List LoopFrame :=
  mainLoop p 0 0 (warmState p) (Nframes p)

/-! ### Basic facts about `clamp` and `pyRound` -/

lemma clamp_of_mem {v lo hi : ℝ} (h1 : lo ≤ v) (h2 : v ≤ hi) : clamp v lo hi = v := by
  rw [clamp, if_neg (not_lt.mpr h1), if_neg (not_lt.mpr h2)]

lemma clamp_of_lt {v lo hi : ℝ} (h : v < lo) : clamp v lo hi = lo := by
  rw [clamp, if_pos h]

lemma clamp_of_gt {v lo hi : ℝ} (h1 : lo ≤ v) (h2 : hi < v) : clamp v lo hi = hi := by
  rw [clamp, if_neg (not_lt.mpr h1), if_pos h2]

lemma clamp_lo_le {lo hi : ℝ} (v : ℝ) (h : lo ≤ hi) : lo ≤ clamp v lo hi := by
  rw [clamp]
  split
  · exact le_refl _
  · split
    · exact h
    · linarith [not_lt.mp (by assumption : ¬ v < lo)]

lemma clamp_le_hi {lo hi : ℝ} (v : ℝ) (h : lo ≤ hi) : clamp v lo hi ≤ hi := by
  rw [clamp]
  split
  · exact h
  · split
    · exact le_refl _
    · exact le_of_not_lt (by assumption)

lemma pyRound_intCast (n : ℤ) : pyRound (n : ℝ) = n := by
  rw [pyRound, Int.fract_intCast, if_neg (by norm_num), round_intCast]

lemma pyRound_zero : pyRound (0 : ℝ) = 0 := by
  simpa using pyRound_intCast 0

lemma pyRound_one : pyRound (1 : ℝ) = 1 := by
  simpa using pyRound_intCast 1

lemma pyRound_two : pyRound (2 : ℝ) = 2 := by
  simpa using pyRound_intCast 2

lemma pyRound_small {x : ℝ} (h0 : 0 ≤ x) (h1 : x < 1 / 2) : pyRound x = 0 := by
  have hfr : Int.fract x = x := Int.fract_eq_self.mpr ⟨h0, by linarith⟩
  rw [pyRound, hfr, if_neg (by intro h; rw [h] at h1; linarith), round_eq]
  exact Int.floor_eq_zero_iff.mpr ⟨by linarith, by linarith⟩

lemma pyRound_nonneg {x : ℝ} (h : 0 ≤ x) : 0 ≤ pyRound x := by
  have hfl : (0 : ℤ) ≤ ⌊x⌋ := Int.floor_nonneg.mpr h
  rw [pyRound]
  split
  · split
    · exact hfl
    · omega
  · rw [round_eq]
    have : (0 : ℤ) ≤ ⌊x + 1 / 2⌋ := Int.floor_nonneg.mpr (by linarith)
    exact this

/-! ### Unfolding lemmas for the simulation -/

lemma stepOnce_theta_d (p : LoopParams) (t : ℝ) (s : SimState) :
    (stepOnce p t s).theta_d = s.theta_d +
      (omegaNPos p * omegaNPos p * ((p.phase0_rad + omegaTarget p * t) - s.theta)
        + 2.0 * zetaPos p * omegaNPos p * (omegaTarget p - s.theta_d)) * dt p := rfl

lemma stepOnce_theta (p : LoopParams) (t : ℝ) (s : SimState) :
    (stepOnce p t s).theta = s.theta + (stepOnce p t s).theta_d * dt p := rfl

lemma stepOnce_psi_d (p : LoopParams) (t : ℝ) (s : SimState) :
    (stepOnce p t s).psi_d = s.psi_d +
      (omegaNOrient p * omegaNOrient p * (((stepOnce p t s).theta + π * 0.5) - s.psi)
        + 2.0 * zetaOrient p * omegaNOrient p * ((stepOnce p t s).theta_d - s.psi_d)) * dt p := rfl

lemma stepOnce_psi (p : LoopParams) (t : ℝ) (s : SimState) :
    (stepOnce p t s).psi = s.psi + (stepOnce p t s).psi_d * dt p := rfl

lemma runSteps_zero (p : LoopParams) (t : ℝ) (s : SimState) :
    runSteps p t 0 s = s := rfl

lemma runSteps_succ (p : LoopParams) (t : ℝ) (k : ℕ) (s : SimState) :
    runSteps p t (k + 1) s = runSteps p (t + dt p) k (stepOnce p t s) := rfl

lemma runSteps_one (p : LoopParams) (t : ℝ) (s : SimState) :
    runSteps p t 1 s = stepOnce p t s := rfl

lemma runSteps_snoc (p : LoopParams) (k : ℕ) :
    ∀ (t : ℝ) (s : SimState),
      runSteps p t (k + 1) s = stepOnce p (t + k * dt p) (runSteps p t k s) := by
  induction k with
  | zero => intro t s; simp [runSteps_succ, runSteps_zero]
  | succ k ih =>
    intro t s
    rw [runSteps_succ, ih (t + dt p) (stepOnce p t s), ← runSteps_succ]
    congr 1
    push_cast
    ring

lemma mainLoop_zero (p : LoopParams) (i : ℕ) (t : ℝ) (s : SimState) :
    mainLoop p i t s 0 = [] := rfl

lemma mainLoop_succ (p : LoopParams) (i : ℕ) (t : ℝ) (s : SimState) (k : ℕ) :
    mainLoop p i t s (k + 1) =
      sampleFrame p i t (stepOnce p t s)
        :: mainLoop p (i + 1) (t + dt p) (stepOnce p t s) k := rfl

lemma mainLoop_length (p : LoopParams) (k : ℕ) :
    ∀ (i : ℕ) (t : ℝ) (s : SimState), (mainLoop p i t s k).length = k := by
  induction k with
  | zero => intro i t s; rfl
  | succ k ih => intro i t s; rw [mainLoop_succ, List.length_cons, ih]

lemma generate_loop_def (p : LoopParams) :
    generate_loop p = mainLoop p 0 0 (warmState p) (Nframes p) := rfl

lemma generate_loop_length (p : LoopParams) :
    (generate_loop p).length = Nframes p := by
  rw [generate_loop_def, mainLoop_length]

lemma one_le_fpsEff (p : LoopParams) : 1 ≤ fpsEff p := le_max_left _ _

lemma one_le_loopsEff (p : LoopParams) : 1 ≤ loopsEff p := le_max_left _ _

lemma one_le_Nframes (p : LoopParams) : 1 ≤ Nframes p := by
  have h : (1 : ℤ) ≤ max 1 (pyRound (p.duration_seconds * (fpsEff p : ℝ))) :=
    le_max_left _ _
  rw [Nframes]
  omega

lemma dt_pos (p : LoopParams) : 0 < dt p := by
  have h := one_le_fpsEff p
  rw [dt]
  have : (0 : ℝ) < (fpsEff p : ℝ) := by exact_mod_cast lt_of_lt_of_le zero_lt_one h
  positivity

lemma T_pos (p : LoopParams) : 0 < T p := by
  have h1 := one_le_Nframes p
  have h2 := dt_pos p
  rw [T]
  have : (0 : ℝ) < (Nframes p : ℝ) := by exact_mod_cast lt_of_lt_of_le Nat.zero_lt_one h1
  positivity

lemma omegaTarget_pos (p : LoopParams) : 0 < omegaTarget p := by
  have h1 := one_le_loopsEff p
  have h2 := T_pos p
  rw [omegaTarget]
  have hL : (0 : ℝ) < (loopsEff p : ℝ) := by exact_mod_cast lt_of_lt_of_le zero_lt_one h1
  have hpi := Real.pi_pos
  positivity

lemma preLoops_nonneg (p : LoopParams) : 0 ≤ preLoops p := le_max_left _ _

lemma preDuration_nonneg (p : LoopParams) : 0 ≤ preDuration p := by
  have h1 := preLoops_nonneg p
  have h2 := one_le_loopsEff p
  have h3 := (T_pos p).le
  rw [preDuration]
  have hP : (0 : ℝ) ≤ (preLoops p : ℝ) := by exact_mod_cast h1
  have hL : (0 : ℝ) < (loopsEff p : ℝ) := by exact_mod_cast lt_of_lt_of_le zero_lt_one h2
  positivity

lemma preSteps_nonneg (p : LoopParams) : 0 ≤ preSteps p := by
  rw [preSteps]
  exact pyRound_nonneg (div_nonneg (preDuration_nonneg p) (dt_pos p).le)

lemma vMean_pos (p : LoopParams) : 0 < vMean p := by
  rw [vMean]
  have := abs_nonneg (p.radius * omegaTarget p)
  nlinarith

/-! ### The squash-and-stretch scale factors -/

lemma stretchGain_nonneg (p : LoopParams) : 0 ≤ stretchGain p := by
  have := @clamp_lo_le 0.0 1.0 p.amolecimento (by norm_num)
  rw [stretchGain]; nlinarith

lemma stretchGain_le (p : LoopParams) : stretchGain p ≤ 0.6 := by
  have := @clamp_le_hi 0.0 1.0 p.amolecimento (by norm_num)
  rw [stretchGain]; nlinarith

lemma normSpeed_bounds (p : LoopParams) (s : SimState) :
    -1 ≤ normSpeed p s ∧ normSpeed p s ≤ 1 := by
  constructor
  · have := @clamp_lo_le (-1.0) 1.0
      ((|p.radius * s.theta_d| - vMean p) / vMean p) (by norm_num)
    rw [normSpeed]; linarith
  · have := @clamp_le_hi (-1.0) 1.0
      ((|p.radius * s.theta_d| - vMean p) / vMean p) (by norm_num)
    rw [normSpeed]; linarith

lemma stretchVal_eq (p : LoopParams) (s : SimState) :
    stretchVal p s = stretchGain p * normSpeed p s ∧
      -0.6 ≤ stretchVal p s ∧ stretchVal p s ≤ 0.6 := by
  obtain ⟨hn1, hn2⟩ := normSpeed_bounds p s
  have hg0 := stretchGain_nonneg p
  have hg6 := stretchGain_le p
  have hlo : (-0.6 : ℝ) ≤ stretchGain p * normSpeed p s := by nlinarith
  have hhi : stretchGain p * normSpeed p s ≤ 0.6 := by nlinarith
  have he : stretchVal p s = stretchGain p * normSpeed p s :=
    clamp_of_mem (by norm_num; nlinarith) (by norm_num; nlinarith)
  exact ⟨he, by rw [he]; exact hlo, by rw [he]; exact hhi⟩

lemma scaleTangent_bounds (p : LoopParams) (s : SimState) :
    scaleTangent p s = 1.0 + stretchVal p s ∧
      0.4 ≤ scaleTangent p s ∧ scaleTangent p s ≤ 1.6 := by
  obtain ⟨-, h1, h2⟩ := stretchVal_eq p s
  have he : scaleTangent p s = 1.0 + stretchVal p s :=
    clamp_of_mem (by norm_num; linarith) (by norm_num; linarith)
  exact ⟨he, by rw [he]; norm_num; linarith, by rw [he]; norm_num; linarith⟩

lemma scaleNormal_eq (p : LoopParams) (s : SimState) :
    scaleNormal p s = 1 / scaleTangent p s ∧
      0.625 ≤ scaleNormal p s ∧ scaleNormal p s ≤ 2.5 := by
  obtain ⟨-, h1, h2⟩ := scaleTangent_bounds p s
  have hpos : (0 : ℝ) < scaleTangent p s := by linarith
  have hlo : (0.625 : ℝ) ≤ 1 / scaleTangent p s := by
    rw [le_div_iff₀ hpos]; linarith
  have hhi : 1 / scaleTangent p s ≤ 2.5 := by
    rw [div_le_iff₀ hpos]; linarith
  have he : scaleNormal p s = 1 / scaleTangent p s :=
    clamp_of_mem (by linarith) (by linarith)
  exact ⟨he, by rw [he]; exact hlo, by rw [he]; exact hhi⟩

lemma scales_mul_one (p : LoopParams) (s : SimState) :
    scaleTangent p s * scaleNormal p s = 1 := by
  obtain ⟨he, -, -⟩ := scaleNormal_eq p s
  obtain ⟨-, h1, -⟩ := scaleTangent_bounds p s
  rw [he]
  exact mul_one_div_cancel (by linarith)

lemma sampleFrame_scale_tangent (p : LoopParams) (i : ℕ) (t : ℝ) (s : SimState) :
    (sampleFrame p i t s).scale_tangent = scaleTangent p s := rfl

lemma sampleFrame_scale_normal (p : LoopParams) (i : ℕ) (t : ℝ) (s : SimState) :
    (sampleFrame p i t s).scale_normal = scaleNormal p s := rfl

lemma sampleFrame_travel_angle (p : LoopParams) (i : ℕ) (t : ℝ) (s : SimState) :
    (sampleFrame p i t s).travel_angle = s.theta := rfl

lemma sampleFrame_orientation (p : LoopParams) (i : ℕ) (t : ℝ) (s : SimState) :
    (sampleFrame p i t s).orientation = s.psi := rfl

lemma sampleFrame_time (p : LoopParams) (i : ℕ) (t : ℝ) (s : SimState) :
    (sampleFrame p i t s).time = t := rfl

lemma mainLoop_mem (p : LoopParams) (k : ℕ) :
    ∀ (i : ℕ) (t : ℝ) (s : SimState) (f : LoopFrame), f ∈ mainLoop p i t s k →
      ∃ (j : ℕ) (u : ℝ) (s2 : SimState), f = sampleFrame p j u s2 := by
  induction k with
  | zero => intro i t s f hf; simp [mainLoop_zero] at hf
  | succ k ih =>
    intro i t s f hf
    rw [mainLoop_succ, List.mem_cons] at hf
    rcases hf with hf | hf
    · exact ⟨i, t, stepOnce p t s, hf⟩
    · exact ih _ _ _ f hf

lemma mem_generate_loop_sample (p : LoopParams) (f : LoopFrame)
    (hf : f ∈ generate_loop p) :
    ∃ (j : ℕ) (u : ℝ) (s2 : SimState), f = sampleFrame p j u s2 := by
  rw [generate_loop_def] at hf
  exact mainLoop_mem p (Nframes p) 0 0 (warmState p) f hf

/-! ### Evaluation helpers for concrete parameter records -/

lemma preLoops_of_nonpos {p : LoopParams} (h : p.pre_roll_loops ≤ 0) :
    preLoops p = 0 := by
  unfold preLoops; omega

lemma preDuration_of_nonpos {p : LoopParams} (h : p.pre_roll_loops ≤ 0) :
    preDuration p = 0 := by
  unfold preDuration
  rw [preLoops_of_nonpos h]
  simp

lemma preSteps_of_nonpos {p : LoopParams} (h : p.pre_roll_loops ≤ 0) :
    preSteps p = 0 := by
  unfold preSteps
  rw [preDuration_of_nonpos h, zero_div, pyRound_zero]

lemma warmState_of_nonpos {p : LoopParams} (h : p.pre_roll_loops ≤ 0) :
    warmState p = initState p := by
  unfold warmState
  rw [preSteps_of_nonpos h]
  simp

lemma mainLoop_one (p : LoopParams) (i : ℕ) (t : ℝ) (s : SimState) :
    mainLoop p i t s 1 = [sampleFrame p i t (stepOnce p t s)] := rfl

lemma mainLoop_two (p : LoopParams) (i : ℕ) (t : ℝ) (s : SimState) :
    mainLoop p i t s 2 =
      [sampleFrame p i t (stepOnce p t s),
       sampleFrame p (i + 1) (t + dt p) (stepOnce p (t + dt p) (stepOnce p t s))] := rfl

lemma gen_single (p : LoopParams) (h1 : Nframes p = 1) (h2 : p.pre_roll_loops ≤ 0) :
    generate_loop p = [sampleFrame p 0 0 (stepOnce p 0 (initState p))] := by
  rw [generate_loop_def, h1, warmState_of_nonpos h2, mainLoop_one]

/-! ### Claim C5 and C10: scale reciprocity and tight scale bounds -/

/-- Claim C5: for every emitted frame, `scale_tangent * scale_normal = 1`
holds exactly (in exact real arithmetic the clamp boundaries never break
the product, so the "except possibly at a clamp boundary" escape hatch is
never needed). -/
theorem scale_reciprocity (p : LoopParams) (f : LoopFrame)
    (hf : f ∈ generate_loop p) : f.scale_tangent * f.scale_normal = 1 := by
  obtain ⟨j, u, s2, rfl⟩ := mem_generate_loop_sample p f hf
  rw [sampleFrame_scale_tangent, sampleFrame_scale_normal]
  exact scales_mul_one p s2

def pW5 : LoopParams := { duration_seconds := 1.0, fps := 1, pre_roll_loops := 0 }

lemma fpsEff_pW5 : fpsEff pW5 = 1 := by norm_num [fpsEff, pW5]

lemma Nframes_pW5 : Nframes pW5 = 1 := by
  have h : pW5.duration_seconds * ((fpsEff pW5 : ℤ) : ℝ) = 1 := by
    rw [fpsEff_pW5]; norm_num [pW5]
  unfold Nframes
  rw [h, pyRound_one]
  rfl

def fW5 : LoopFrame := sampleFrame pW5 0 0 (stepOnce pW5 0 (initState pW5))

lemma gen_pW5 : generate_loop pW5 = [fW5] :=
  gen_single pW5 Nframes_pW5 (by norm_num [pW5])

/-- Witness for C5 at a concrete one-frame run. -/
theorem scale_reciprocity_witness :
    fW5 ∈ generate_loop pW5 ∧ fW5.scale_tangent * fW5.scale_normal = 1 := by
  have hm : fW5 ∈ generate_loop pW5 := by
    rw [gen_pW5]; exact List.mem_singleton.mpr rfl
  exact ⟨hm, scale_reciprocity pW5 fW5 hm⟩

/-- Claim C10 (implicit): every emitted frame has `scale_tangent ∈ [0.4, 1.6]`,
`scale_normal` is exactly the reciprocal of `scale_tangent`, and
`scale_normal ∈ [0.625, 2.5]`: none of the clamps is ever value-changing
beyond those ranges, so the clamp-breaks-reciprocity edge case is unreachable. -/
theorem scale_tight_bounds (p : LoopParams) (f : LoopFrame)
    (hf : f ∈ generate_loop p) :
    0.4 ≤ f.scale_tangent ∧ f.scale_tangent ≤ 1.6 ∧
      f.scale_normal = 1 / f.scale_tangent ∧
      0.625 ≤ f.scale_normal ∧ f.scale_normal ≤ 2.5 := by
  obtain ⟨j, u, s2, rfl⟩ := mem_generate_loop_sample p f hf
  rw [sampleFrame_scale_tangent, sampleFrame_scale_normal]
  obtain ⟨-, ht1, ht2⟩ := scaleTangent_bounds p s2
  obtain ⟨hne, hn1, hn2⟩ := scaleNormal_eq p s2
  exact ⟨ht1, ht2, hne, hn1, hn2⟩

def pW10 : LoopParams :=
  { duration_seconds := 1.0, fps := 1, pre_roll_loops := 0, amolecimento := 0.0 }

lemma fpsEff_pW10 : fpsEff pW10 = 1 := by norm_num [fpsEff, pW10]

lemma Nframes_pW10 : Nframes pW10 = 1 := by
  have h : pW10.duration_seconds * ((fpsEff pW10 : ℤ) : ℝ) = 1 := by
    rw [fpsEff_pW10]; norm_num [pW10]
  unfold Nframes
  rw [h, pyRound_one]
  rfl

def fW10 : LoopFrame := sampleFrame pW10 0 0 (stepOnce pW10 0 (initState pW10))

lemma gen_pW10 : generate_loop pW10 = [fW10] :=
  gen_single pW10 Nframes_pW10 (by norm_num [pW10])

/-- Witness for C10 at a concrete one-frame run. -/
theorem scale_tight_bounds_witness :
    fW10 ∈ generate_loop pW10 ∧
      (0.4 ≤ fW10.scale_tangent ∧ fW10.scale_tangent ≤ 1.6 ∧
        fW10.scale_normal = 1 / fW10.scale_tangent ∧
        0.625 ≤ fW10.scale_normal ∧ fW10.scale_normal ≤ 2.5) := by
  have hm : fW10 ∈ generate_loop pW10 := by
    rw [gen_pW10]; exact List.mem_singleton.mpr rfl
  exact ⟨hm, scale_tight_bounds pW10 fW10 hm⟩

/-! ### Claim C2: the per-step update, stated as in the spec -/

/-- The Angle Tracker update exactly as the spec (§4.2) words it:
`theta_ddot = ω_n_pos² (θ* − θ) + 2 ζ ω_n_pos (θ*' − θ')`, then
`theta_dot += theta_ddot·dt`, then `theta += theta_dot·dt`, leaving the
orientation state untouched. -/
def specAngleUpdate (p : LoopParams) (t : ℝ) (s : SimState) : SimState :=
  let theta_target := p.phase0_rad + omegaTarget p * t
  let theta_target_d := omegaTarget p
  let theta_ddot := omegaNPos p ^ 2 * (theta_target - s.theta)
    + 2 * zetaPos p * omegaNPos p * (theta_target_d - s.theta_d)
  let theta_dot := s.theta_d + theta_ddot * dt p
  ⟨s.theta + theta_dot * dt p, theta_dot, s.psi, s.psi_d⟩

/-- The Orientation Tracker update exactly as the spec (§4.3) words it:
its target is taken live from the state it receives —
`psi_target = theta + π/2`, `psi_target_d = theta_dot` — so composing it
after `specAngleUpdate` makes it chase the *updated* angle state. -/
def specOrientUpdate (p : LoopParams) (s : SimState) : SimState :=
  let psi_target := s.theta + π / 2
  let psi_target_d := s.theta_d
  let psi_ddot := omegaNOrient p ^ 2 * (psi_target - s.psi)
    + 2 * zetaOrient p * omegaNOrient p * (psi_target_d - s.psi_d)
  let psi_dot := s.psi_d + psi_ddot * dt p
  ⟨s.theta, s.theta_d, s.psi + psi_dot * dt p, psi_dot⟩

/-- Claim C2: each simulation step is exactly the spec's semi-implicit Euler
update for both trackers, with the Angle Tracker advanced first and the
Orientation Tracker's target computed from the already-updated angle state. -/
theorem step_order_spec (p : LoopParams) (t : ℝ) (s : SimState) :
    stepOnce p t s = specOrientUpdate p (specAngleUpdate p t s) := by
  simp only [stepOnce, specAngleUpdate, specOrientUpdate]
  refine SimState.ext ?_ ?_ ?_ ?_ <;> dsimp only <;> ring

/-! ### Claim C8: totality and defensive clamping -/

/-- Claim C8: `generate_loop` has no failure path — the effective fps and
loops are floored to 1, the frame count to 1, the pre-roll to 0, every
internal division has a positive denominator (`dt`, `T`, `omega_target`
positive, `v_mean ≥ 1e-8`, `scale_tangent ≥ 0.4`), and a frame sequence of
length `N ≥ 1` is always returned. -/
theorem totality_guards (p : LoopParams) :
    1 ≤ fpsEff p ∧ 1 ≤ loopsEff p ∧ 1 ≤ Nframes p ∧ 0 ≤ preLoops p ∧
      0 ≤ preSteps p ∧ 0 < dt p ∧ 0 < T p ∧ 0 < omegaTarget p ∧ 0 < vMean p ∧
      (∀ s : SimState, 0.4 ≤ scaleTangent p s) ∧
      (generate_loop p).length = Nframes p :=
  ⟨one_le_fpsEff p, one_le_loopsEff p, one_le_Nframes p, preLoops_nonneg p,
   preSteps_nonneg p, dt_pos p, T_pos p, omegaTarget_pos p, vMean_pos p,
   fun s => (scaleTangent_bounds p s).2.1, generate_loop_length p⟩

/-! ### Claim C9: determinism -/

/-- Claim C9: the embedded `generate_loop` is a pure function of the twelve
parameter fields — two calls whose `LoopParams` agree field by field return
equal frame sequences (every field of every frame equal); there is no hidden
state. -/
theorem determinism_ext (p q : LoopParams)
    (h1 : p.duration_seconds = q.duration_seconds) (h2 : p.fps = q.fps)
    (h3 : p.radius = q.radius) (h4 : p.center_x = q.center_x)
    (h5 : p.center_y = q.center_y) (h6 : p.phase0_rad = q.phase0_rad)
    (h7 : p.elasticidade = q.elasticidade) (h8 : p.fluidez = q.fluidez)
    (h9 : p.inercia = q.inercia) (h10 : p.amolecimento = q.amolecimento)
    (h11 : p.loops = q.loops) (h12 : p.pre_roll_loops = q.pre_roll_loops) :
    generate_loop p = generate_loop q := by
  have hpq : p = q := by ext <;> assumption
  rw [hpq]

def pW9 : LoopParams := {}

/-- Witness for C9 at the default parameters. -/
theorem determinism_ext_witness : generate_loop pW9 = generate_loop pW9 :=
  determinism_ext pW9 pW9 rfl rfl rfl rfl rfl rfl rfl rfl rfl rfl rfl rfl

/-! ### Claim C1: the emitted frame count -/

/-- Claim C1: for `fps ≥ 1` (the data model's invariant for the field), the
emitted sequence has exactly `max(1, round(duration_seconds * fps))` frames,
hence always at least one frame, for any real `duration_seconds`. -/
theorem frame_count_eq (p : LoopParams) (hfps : 1 ≤ p.fps) :
    ((generate_loop p).length : ℤ) =
        max 1 (pyRound (p.duration_seconds * (p.fps : ℝ))) ∧
      1 ≤ (generate_loop p).length := by
  have hf : fpsEff p = p.fps := max_eq_right hfps
  constructor
  · rw [generate_loop_length]
    unfold Nframes
    rw [hf]
    exact Int.toNat_of_nonneg
      (le_trans (by norm_num) (le_max_left 1 (pyRound (p.duration_seconds * (p.fps : ℝ)))))
  · rw [generate_loop_length]
    exact one_le_Nframes p

def pW1 : LoopParams := { duration_seconds := 0.001, fps := 1 }

/-- Witness for C1 at the spec's degenerate example
`duration_seconds = 0.001, fps = 1`, which yields exactly one frame. -/
theorem frame_count_eq_witness :
    1 ≤ pW1.fps ∧
      (((generate_loop pW1).length : ℤ) =
          max 1 (pyRound (pW1.duration_seconds * (pW1.fps : ℝ))) ∧
        1 ≤ (generate_loop pW1).length) ∧
      (generate_loop pW1).length = 1 := by
  have h : 1 ≤ pW1.fps := by norm_num [pW1]
  refine ⟨h, frame_count_eq pW1 h, ?_⟩
  have hf1 : fpsEff pW1 = 1 := by norm_num [fpsEff, pW1]
  have harg : pW1.duration_seconds * ((fpsEff pW1 : ℤ) : ℝ) = 0.001 := by
    rw [hf1]
    norm_num [pW1]
  rw [generate_loop_length]
  unfold Nframes
  rw [harg, pyRound_small (by norm_num) (by norm_num)]
  rfl

/-! ### Claim C7: the simulated time grid -/

lemma mainLoop_map_time (p : LoopParams) (k : ℕ) :
    ∀ (i : ℕ) (t : ℝ) (s : SimState),
      (mainLoop p i t s k).map LoopFrame.time =
        (List.range k).map (fun j : ℕ => t + (j : ℝ) * dt p) := by
  induction k with
  | zero => intro i t s; simp [mainLoop_zero]
  | succ k ih =>
    intro i t s
    rw [mainLoop_succ, List.map_cons, ih (i + 1) (t + dt p) (stepOnce p t s),
      List.range_succ_eq_map, List.map_cons, List.map_map]
    congr 1
    · rw [sampleFrame_time]; norm_num
    · refine List.map_congr_left (fun a _ => ?_)
      show t + dt p + (a : ℝ) * dt p = t + ((a + 1 : ℕ) : ℝ) * dt p
      push_cast
      ring

/-- Claim C7 (amended): the recorded frames carry times `0, dt, 2·dt, …`
(so the first recorded step is exactly at `t = 0`), and the warm-up grid
joins it without discontinuity — `pre_steps * dt = pre_duration` — whenever
`loops` divides `pre_roll_loops * N` (in particular whenever `loops = 1`);
otherwise the rounding of `pre_steps` breaks the exact junction. -/
theorem time_grid_spec (p : LoopParams) :
    (generate_loop p).map LoopFrame.time =
        (List.range (Nframes p)).map (fun i : ℕ => (i : ℝ) * dt p) ∧
      ((loopsEff p ∣ preLoops p * (Nframes p : ℤ)) →
        (preSteps p : ℝ) * dt p = preDuration p) := by
  constructor
  · rw [generate_loop_def, mainLoop_map_time]
    refine List.map_congr_left (fun a _ => ?_)
    rw [zero_add]
  · rintro ⟨m, hm⟩
    have hdt := dt_pos p
    have hL : (0 : ℝ) < (loopsEff p : ℝ) := by
      exact_mod_cast lt_of_lt_of_le zero_lt_one (one_le_loopsEff p)
    have hcast : (preLoops p : ℝ) * (Nframes p : ℝ) = (loopsEff p : ℝ) * (m : ℝ) := by
      exact_mod_cast congrArg (fun z : ℤ => (z : ℝ)) hm
    have harg : preDuration p / dt p = (m : ℝ) := by
      rw [preDuration, T]
      field_simp
      linear_combination dt p * hcast
    have hpd : preDuration p = (m : ℝ) * dt p := (div_eq_iff hdt.ne').mp harg
    rw [preSteps, harg, pyRound_intCast, hpd]

def p7c : LoopParams := { duration_seconds := 1.0, fps := 1, loops := 3, pre_roll_loops := 1 }

lemma fpsEff_p7c : fpsEff p7c = 1 := by norm_num [fpsEff, p7c]

lemma dt_p7c : dt p7c = 1 := by rw [dt, fpsEff_p7c]; norm_num

lemma Nframes_p7c : Nframes p7c = 1 := by
  have harg : p7c.duration_seconds * ((fpsEff p7c : ℤ) : ℝ) = 1 := by
    rw [fpsEff_p7c]; norm_num [p7c]
  unfold Nframes
  rw [harg, pyRound_one]
  rfl

lemma T_p7c : T p7c = 1 := by rw [T, Nframes_p7c, dt_p7c]; norm_num

lemma loopsEff_p7c : loopsEff p7c = 3 := by norm_num [loopsEff, p7c]

lemma preLoops_p7c : preLoops p7c = 1 := by norm_num [preLoops, p7c]

lemma preDuration_p7c : preDuration p7c = 1 / 3 := by
  rw [preDuration, preLoops_p7c, loopsEff_p7c, T_p7c]
  norm_num

lemma preSteps_p7c : preSteps p7c = 0 := by
  rw [preSteps, preDuration_p7c, dt_p7c]
  have h : (1 / 3 : ℝ) / 1 = 1 / 3 := by norm_num
  rw [h]
  exact pyRound_small (by norm_num) (by norm_num)

/-- Counterexample to C7 as stated: with `loops = 3`, `pre_roll_loops = 1`,
`duration_seconds = 1`, `fps = 1` the code rounds `pre_steps` to `0`, yet
`pre_duration = 1/3`, so `pre_steps * dt ≠ pre_duration` and the warm-up grid
does not join the recorded grid without a time jump. -/
theorem preroll_junction_cex :
    ¬ ((preSteps p7c : ℝ) * dt p7c = preDuration p7c) := by
  rw [preSteps_p7c, dt_p7c, preDuration_p7c]
  norm_num

def pW7 : LoopParams := { fps := 2 }

/-- Witness for the amended C7: with the default single loop, the divisibility
hypothesis holds and the junction is exact. -/
theorem time_grid_spec_witness :
    (loopsEff pW7 ∣ preLoops pW7 * (Nframes pW7 : ℤ)) ∧
      (preSteps pW7 : ℝ) * dt pW7 = preDuration pW7 := by
  have h1 : loopsEff pW7 = 1 := by norm_num [loopsEff, pW7]
  have hd : loopsEff pW7 ∣ preLoops pW7 * (Nframes pW7 : ℤ) := by
    rw [h1]; exact one_dvd _
  exact ⟨hd, (time_grid_spec pW7).2 hd⟩

/-! ### Claim C4: monotonicity of `travel_angle` -/

lemma initState_theta (p : LoopParams) : (initState p).theta = p.phase0_rad := rfl

lemma initState_theta_d (p : LoopParams) : (initState p).theta_d = omegaTarget p := rfl

lemma initState_psi (p : LoopParams) : (initState p).psi = p.phase0_rad + π * 0.5 := rfl

lemma initState_psi_d (p : LoopParams) : (initState p).psi_d = omegaTarget p := rfl

lemma mainLoop_getD (p : LoopParams) (k : ℕ) :
    ∀ (i j : ℕ) (t : ℝ) (s : SimState), i < k →
      (mainLoop p j t s k).getD i dfFrame =
        sampleFrame p (j + i) (t + (i : ℝ) * dt p) (runSteps p t (i + 1) s) := by
  induction k with
  | zero => intro i j t s h; omega
  | succ k ih =>
    intro i j t s h
    rw [mainLoop_succ]
    cases i with
    | zero =>
      rw [List.getD_cons_zero]
      rw [show runSteps p t (0 + 1) s = stepOnce p t s from rfl]
      norm_num
    | succ i =>
      rw [List.getD_cons_succ]
      rw [ih i (j + 1) (t + dt p) (stepOnce p t s) (by omega)]
      have hj : j + 1 + i = j + (i + 1) := by omega
      have ht : t + dt p + (i : ℝ) * dt p = t + ((i + 1 : ℕ) : ℝ) * dt p := by
        push_cast; ring
      rw [hj, ht]
      rfl

/-- With matched initial conditions and no warm-up shift, the discrete angle
tracker stays exactly on the linear target ramp. -/
lemma track_exact (p : LoopParams) (k : ℕ) :
    (runSteps p 0 k (initState p)).theta_d = omegaTarget p ∧
      (runSteps p 0 k (initState p)).theta =
        p.phase0_rad + omegaTarget p * ((k : ℝ) * dt p) := by
  induction k with
  | zero =>
    refine ⟨rfl, ?_⟩
    rw [runSteps_zero, initState_theta]
    norm_num
  | succ k ih =>
    obtain ⟨ihd, iht⟩ := ih
    rw [runSteps_snoc]
    constructor
    · rw [stepOnce_theta_d, ihd, iht]
      ring
    · rw [stepOnce_theta, stepOnce_theta_d, ihd, iht]
      push_cast
      ring

/-- Claim C4 (amended): `travel_angle` is non-decreasing whenever there is no
pre-roll (`pre_roll_loops ≤ 0`): the tracker starts exactly on the target ramp
and follows it exactly, with constant per-frame increment `omega_target·dt > 0`.
(With pre-roll the warm-up shifts the target and a stiff, underdamped setting
makes the discrete integrator reverse — see the counterexample.) -/
theorem travel_angle_monotone_no_preroll (p : LoopParams)
    (hpre : p.pre_roll_loops ≤ 0) (i : ℕ)
    (hi : i + 1 < (generate_loop p).length) :
    ((generate_loop p).getD i dfFrame).travel_angle ≤
      ((generate_loop p).getD (i + 1) dfFrame).travel_angle := by
  have hlen : i + 1 < Nframes p := by rwa [generate_loop_length] at hi
  rw [generate_loop_def, warmState_of_nonpos hpre]
  rw [mainLoop_getD p (Nframes p) i 0 0 (initState p) (by omega),
    mainLoop_getD p (Nframes p) (i + 1) 0 0 (initState p) hlen]
  rw [sampleFrame_travel_angle, sampleFrame_travel_angle]
  rw [(track_exact p (i + 1)).2, (track_exact p (i + 1 + 1)).2]
  have hwd := mul_pos (omegaTarget_pos p) (dt_pos p)
  push_cast
  nlinarith [hwd]

def pW4 : LoopParams := { duration_seconds := 2.0, fps := 1, pre_roll_loops := 0 }

lemma fpsEff_pW4 : fpsEff pW4 = 1 := by norm_num [fpsEff, pW4]

lemma Nframes_pW4 : Nframes pW4 = 2 := by
  have harg : pW4.duration_seconds * ((fpsEff pW4 : ℤ) : ℝ) = 2 := by
    rw [fpsEff_pW4]; norm_num [pW4]
  unfold Nframes
  rw [harg, pyRound_two]
  rfl

/-- Witness for the amended C4 on a concrete two-frame run without pre-roll. -/
theorem travel_angle_monotone_witness :
    pW4.pre_roll_loops ≤ 0 ∧ 0 + 1 < (generate_loop pW4).length ∧
      ((generate_loop pW4).getD 0 dfFrame).travel_angle ≤
        ((generate_loop pW4).getD (0 + 1) dfFrame).travel_angle := by
  have h1 : pW4.pre_roll_loops ≤ 0 := by norm_num [pW4]
  have h2 : 0 + 1 < (generate_loop pW4).length := by
    rw [generate_loop_length, Nframes_pW4]
    norm_num
  exact ⟨h1, h2, travel_angle_monotone_no_preroll pW4 h1 0 h2⟩

def p4c : LoopParams :=
  { duration_seconds := 2.0, fps := 1, loops := 2, pre_roll_loops := 1,
    elasticidade := 1.0, fluidez := 0.0 }

lemma fpsEff_p4c : fpsEff p4c = 1 := by norm_num [fpsEff, p4c]

lemma dt_p4c : dt p4c = 1 := by rw [dt, fpsEff_p4c]; norm_num

lemma Nframes_p4c : Nframes p4c = 2 := by
  have harg : p4c.duration_seconds * ((fpsEff p4c : ℤ) : ℝ) = 2 := by
    rw [fpsEff_p4c]; norm_num [p4c]
  unfold Nframes
  rw [harg, pyRound_two]
  rfl

lemma T_p4c : T p4c = 2 := by rw [T, Nframes_p4c, dt_p4c]; norm_num

lemma loopsEff_p4c : loopsEff p4c = 2 := by norm_num [loopsEff, p4c]

lemma omegaTarget_p4c : omegaTarget p4c = 2 * π := by
  rw [omegaTarget, loopsEff_p4c, T_p4c]
  push_cast
  ring

lemma zetaPos_p4c : zetaPos p4c = 0.05 := by
  have h : (0.05 : ℝ) + 1.95 * p4c.fluidez = 0.05 := by norm_num [p4c]
  rw [zetaPos, h]
  exact clamp_of_mem le_rfl (by norm_num)

lemma omegaNPos_p4c : omegaNPos p4c = 7 * π := by
  have h : clamp p4c.elasticidade 0.0 1.0 = 1 := by
    rw [clamp_of_mem (by norm_num [p4c]) (by norm_num [p4c])]
    norm_num [p4c]
  rw [omegaNPos, omegaTarget_p4c, h]
  ring

lemma phase0_p4c : p4c.phase0_rad = 0 := by norm_num [p4c]

lemma preLoops_p4c : preLoops p4c = 1 := by norm_num [preLoops, p4c]

lemma preDuration_p4c : preDuration p4c = 1 := by
  rw [preDuration, preLoops_p4c, loopsEff_p4c, T_p4c]
  norm_num

lemma preSteps_p4c : preSteps p4c = 1 := by
  rw [preSteps, preDuration_p4c, dt_p4c]
  norm_num [pyRound_one]

lemma warmState_p4c : warmState p4c = stepOnce p4c (-1) (initState p4c) := by
  unfold warmState
  rw [preSteps_p4c, preDuration_p4c, if_pos (by norm_num : (0 : ℤ) < 1)]
  rw [show (1 : ℤ).toNat = 1 from rfl, runSteps_one]

/-- Counterexample to C4 as stated: at `loops = 2, duration = 2, fps = 1,
elasticidade = 1, fluidez = 0, pre_roll_loops = 1` the target angular velocity
is positive, yet the recorded `travel_angle` strictly decreases from frame 0
to frame 1 (the explicit-in-position Euler step is unstable at `ω_n·dt = 7π`). -/
theorem travel_angle_reversal_cex :
    0 < omegaTarget p4c ∧ (generate_loop p4c).length = 2 ∧
      ((generate_loop p4c).getD 1 dfFrame).travel_angle <
        ((generate_loop p4c).getD 0 dfFrame).travel_angle := by
  refine ⟨?_, ?_, ?_⟩
  · rw [omegaTarget_p4c]
    positivity
  · rw [generate_loop_length, Nframes_p4c]
  · rw [generate_loop_def, Nframes_p4c]
    rw [mainLoop_getD p4c 2 1 0 0 (warmState p4c) (by norm_num),
      mainLoop_getD p4c 2 0 0 0 (warmState p4c) (by norm_num)]
    rw [sampleFrame_travel_angle, sampleFrame_travel_angle, warmState_p4c]
    rw [show runSteps p4c 0 (0 + 1) (stepOnce p4c (-1) (initState p4c)) =
      stepOnce p4c 0 (stepOnce p4c (-1) (initState p4c)) from rfl]
    rw [show runSteps p4c 0 (1 + 1) (stepOnce p4c (-1) (initState p4c)) =
      stepOnce p4c (0 + dt p4c) (stepOnce p4c 0 (stepOnce p4c (-1) (initState p4c)))
      from rfl]
    rw [dt_p4c]
    norm_num
    have hAd : (stepOnce p4c (-1) (initState p4c)).theta_d = 2 * π - 98 * π ^ 3 := by
      rw [stepOnce_theta_d, initState_theta, initState_theta_d, omegaTarget_p4c,
        omegaNPos_p4c, zetaPos_p4c, dt_p4c, phase0_p4c]
      ring
    have hA : (stepOnce p4c (-1) (initState p4c)).theta = 2 * π - 98 * π ^ 3 := by
      rw [stepOnce_theta, hAd, initState_theta, dt_p4c, phase0_p4c]
      ring
    have hBd : (stepOnce p4c 0 (stepOnce p4c (-1) (initState p4c))).theta_d =
        2 * π - 196 * π ^ 3 + (343 / 5) * π ^ 4 + 4802 * π ^ 5 := by
      rw [stepOnce_theta_d, hA, hAd, omegaTarget_p4c, omegaNPos_p4c, zetaPos_p4c,
        dt_p4c, phase0_p4c]
      ring
    have hB : (stepOnce p4c 0 (stepOnce p4c (-1) (initState p4c))).theta =
        4 * π - 294 * π ^ 3 + (343 / 5) * π ^ 4 + 4802 * π ^ 5 := by
      rw [stepOnce_theta, hBd, hA, dt_p4c]
      ring
    have hCd : (stepOnce p4c 1 (stepOnce p4c 0 (stepOnce p4c (-1) (initState p4c)))).theta_d =
        2 * π - 294 * π ^ 3 + (1029 / 5) * π ^ 4 + (957999 / 50) * π ^ 5
          - (33614 / 5) * π ^ 6 - 235298 * π ^ 7 := by
      rw [stepOnce_theta_d, hB, hBd, omegaTarget_p4c, omegaNPos_p4c, zetaPos_p4c,
        dt_p4c, phase0_p4c]
      ring
    rw [stepOnce_theta, hCd, dt_p4c]
    have hp : (0 : ℝ) < π := Real.pi_pos
    have h3 : (3 : ℝ) < π := Real.pi_gt_three
    have h315 : π < 3.15 := Real.pi_lt_d2
    have h2u : π ^ 2 < 9.9225 := by nlinarith
    have h2l : (9 : ℝ) < π ^ 2 := by nlinarith
    have h3l : (27 : ℝ) < π ^ 3 := by nlinarith [h2l, h3, hp]
    have h4u : π ^ 4 < 98.46 := by nlinarith [h2u, pow_pos hp 2]
    have h5u : π ^ 5 < 310.2 := by nlinarith [h4u, pow_pos hp 4, h315, hp]
    have h6l : (729 : ℝ) < π ^ 6 := by nlinarith [h3l, pow_pos hp 3]
    have h7l : (2187 : ℝ) < π ^ 7 := by nlinarith [h6l, h3, pow_pos hp 6, hp]
    linarith

/-! ### Claim C6: the fluidity knob -/

/-- The per-step update as a function of the precomputed constants;
`stepOnce p` is `stepCore` applied to `p`'s derived constants. -/
def stepCore (a ω ζp ωp ζo ωo d : ℝ) (t : ℝ) (s : SimState) : SimState :=
  let theta_target := a + ω * t
  let theta_target_d := ω
  let theta_dd := ωp * ωp * (theta_target - s.theta)
    + 2.0 * ζp * ωp * (theta_target_d - s.theta_d)
  let theta_d := s.theta_d + theta_dd * d
  let theta := s.theta + theta_d * d
  let psi_target := theta + π * 0.5
  let psi_target_d := theta_d
  let psi_dd := ωo * ωo * (psi_target - s.psi)
    + 2.0 * ζo * ωo * (psi_target_d - s.psi_d)
  let psi_d := s.psi_d + psi_dd * d
  let psi := s.psi + psi_d * d
  ⟨theta, theta_d, psi, psi_d⟩

lemma stepOnce_eq_core (p : LoopParams) :
    stepOnce p = stepCore p.phase0_rad (omegaTarget p) (zetaPos p) (omegaNPos p)
      (zetaOrient p) (omegaNOrient p) (dt p) := rfl

lemma stepOnce_fluidez (p : LoopParams) (x : ℝ)
    (hzp : zetaPos { p with fluidez := x } = zetaPos p)
    (hzo : zetaOrient { p with fluidez := x } = zetaOrient p) :
    stepOnce { p with fluidez := x } = stepOnce p := by
  rw [stepOnce_eq_core { p with fluidez := x }, stepOnce_eq_core p, hzp, hzo]
  rfl

lemma runSteps_fluidez (p : LoopParams) (x : ℝ)
    (hstep : stepOnce { p with fluidez := x } = stepOnce p) (k : ℕ) :
    ∀ (t : ℝ) (s : SimState),
      runSteps { p with fluidez := x } t k s = runSteps p t k s := by
  induction k with
  | zero => intro t s; rfl
  | succ k ih =>
    intro t s
    rw [runSteps_succ, runSteps_succ, hstep, ih]
    rfl

lemma mainLoop_fluidez (p : LoopParams) (x : ℝ)
    (hstep : stepOnce { p with fluidez := x } = stepOnce p) (k : ℕ) :
    ∀ (i : ℕ) (t : ℝ) (s : SimState),
      mainLoop { p with fluidez := x } i t s k = mainLoop p i t s k := by
  induction k with
  | zero => intro i t s; rfl
  | succ k ih =>
    intro i t s
    rw [mainLoop_succ, mainLoop_succ, hstep, ih]
    rfl

lemma warmState_fluidez (p : LoopParams) (x : ℝ)
    (hstep : stepOnce { p with fluidez := x } = stepOnce p) :
    warmState { p with fluidez := x } = warmState p := by
  unfold warmState
  rw [runSteps_fluidez p x hstep]
  rfl

lemma generate_loop_fluidez (p : LoopParams) (x : ℝ)
    (hzp : zetaPos { p with fluidez := x } = zetaPos p)
    (hzo : zetaOrient { p with fluidez := x } = zetaOrient p) :
    generate_loop { p with fluidez := x } = generate_loop p := by
  have hstep := stepOnce_fluidez p x hzp hzo
  rw [generate_loop_def, generate_loop_def, warmState_fluidez p x hstep,
    mainLoop_fluidez p x hstep]
  rfl

lemma zetaPos_clamp_eq (p : LoopParams) (hf : p.fluidez ≤ 1) :
    zetaPos { p with fluidez := clamp p.fluidez 0 1 } = zetaPos p := by
  by_cases h0 : 0 ≤ p.fluidez
  · rw [show clamp p.fluidez 0 1 = p.fluidez from clamp_of_mem h0 hf]
  · push_neg at h0
    rw [show clamp p.fluidez 0 1 = 0 from clamp_of_lt h0]
    show clamp (0.05 + 1.95 * (0 : ℝ)) 0.05 2.5 = clamp (0.05 + 1.95 * p.fluidez) 0.05 2.5
    rw [clamp_of_mem (by norm_num) (by norm_num), clamp_of_lt (by nlinarith)]
    norm_num

lemma zetaOrient_clamp_eq (p : LoopParams) (hf : p.fluidez ≤ 1) :
    zetaOrient { p with fluidez := clamp p.fluidez 0 1 } = zetaOrient p :=
  zetaPos_clamp_eq p hf

/-- Claim C6 (amended): the code never clamps `fluidez` itself to `[0,1]`;
the damping ratio of both trackers is `clamp(0.05 + 1.95·fluidez, 0.05, 2.5)`
computed from the raw knob.  Replacing `fluidez` by `clamp(fluidez, 0, 1)`
preserves the generated frames whenever `fluidez ≤ 1` (the 0.05 floor absorbs
negative values), but not in general for `fluidez > 1`. -/
theorem fluidez_damping_behavior (p : LoopParams) :
    zetaPos p = clamp (0.05 + 1.95 * p.fluidez) 0.05 2.5 ∧
      zetaOrient p = zetaPos p ∧
      (p.fluidez ≤ 1 →
        generate_loop p = generate_loop { p with fluidez := clamp p.fluidez 0 1 }) := by
  refine ⟨rfl, rfl, fun hf => ?_⟩
  exact (generate_loop_fluidez p (clamp p.fluidez 0 1)
    (zetaPos_clamp_eq p hf) (zetaOrient_clamp_eq p hf)).symm

def pW6 : LoopParams := { fluidez := 0.25 }

/-- Witness for the amended C6: with `fluidez = 0.25 ≤ 1` the substitution is
frame-preserving. -/
theorem fluidez_damping_witness :
    pW6.fluidez ≤ 1 ∧
      generate_loop pW6 = generate_loop { pW6 with fluidez := clamp pW6.fluidez 0 1 } := by
  have h : pW6.fluidez ≤ 1 := by norm_num [pW6]
  exact ⟨h, (fluidez_damping_behavior pW6).2.2 h⟩

def p6 (f : ℝ) : LoopParams :=
  { duration_seconds := 2.0, fps := 1, loops := 1, pre_roll_loops := 0,
    inercia := 0.0, fluidez := f }

lemma fpsEff_p6 (f : ℝ) : fpsEff (p6 f) = 1 := by norm_num [fpsEff, p6]

lemma dt_p6 (f : ℝ) : dt (p6 f) = 1 := by rw [dt, fpsEff_p6]; norm_num

lemma Nframes_p6 (f : ℝ) : Nframes (p6 f) = 2 := by
  have harg : (p6 f).duration_seconds * ((fpsEff (p6 f) : ℤ) : ℝ) = 2 := by
    rw [fpsEff_p6]; norm_num [p6]
  unfold Nframes
  rw [harg, pyRound_two]
  rfl

lemma T_p6 (f : ℝ) : T (p6 f) = 2 := by rw [T, Nframes_p6, dt_p6]; norm_num

lemma loopsEff_p6 (f : ℝ) : loopsEff (p6 f) = 1 := by norm_num [loopsEff, p6]

lemma omegaTarget_p6 (f : ℝ) : omegaTarget (p6 f) = π := by
  rw [omegaTarget, loopsEff_p6, T_p6]
  push_cast
  ring

lemma omegaNPos_p6 (f : ℝ) : omegaNPos (p6 f) = 2 * π := by
  have h : clamp (p6 f).elasticidade 0.0 1.0 = 0.5 := by
    rw [clamp_of_mem (by norm_num [p6]) (by norm_num [p6])]
    norm_num [p6]
  rw [omegaNPos, omegaTarget_p6, h]
  ring

lemma omegaNOrient_p6 (f : ℝ) : omegaNOrient (p6 f) = 2 * π := by
  have h : clamp (p6 f).inercia 0.0 1.0 = 0 := by
    rw [clamp_of_mem (by norm_num [p6]) (by norm_num [p6])]
    norm_num [p6]
  rw [omegaNOrient, omegaTarget_p6, h]
  rw [clamp_of_mem (by nlinarith [Real.pi_pos]) (by nlinarith [Real.pi_pos])]
  ring

lemma phase0_p6 (f : ℝ) : (p6 f).phase0_rad = 0 := by norm_num [p6]

lemma warmState_p6 (f : ℝ) : warmState (p6 f) = initState (p6 f) :=
  warmState_of_nonpos (by norm_num [p6])

lemma zetaOrient_p6a : zetaOrient (p6 2) = 5 / 2 := by
  have h : (0.05 : ℝ) + 1.95 * (p6 2).fluidez = 3.95 := by norm_num [p6]
  rw [zetaOrient, h, clamp_of_gt (by norm_num) (by norm_num)]
  norm_num

lemma zetaOrient_p6b : zetaOrient (p6 1) = 2 := by
  have h : (0.05 : ℝ) + 1.95 * (p6 1).fluidez = 2 := by norm_num [p6]
  rw [zetaOrient, h, clamp_of_mem (by norm_num) (by norm_num)]

/-- The orientation of frame 1 of `p6 f`, as a function of the damping ratio. -/
lemma orientation_p6 (f z : ℝ) (hz : zetaOrient (p6 f) = z) :
    ((generate_loop (p6 f)).getD 1 dfFrame).orientation =
      π * 0.5 + 2 * π + 12 * π ^ 3 - 16 * z * π ^ 4 - 16 * π ^ 5 := by
  rw [generate_loop_def, Nframes_p6, warmState_p6]
  rw [mainLoop_getD (p6 f) 2 1 0 0 (initState (p6 f)) (by norm_num)]
  rw [sampleFrame_orientation]
  rw [show runSteps (p6 f) 0 (1 + 1) (initState (p6 f)) =
    stepOnce (p6 f) (0 + dt (p6 f)) (stepOnce (p6 f) 0 (initState (p6 f))) from rfl]
  rw [dt_p6]
  norm_num
  have h1d : (stepOnce (p6 f) 0 (initState (p6 f))).theta_d = π := by
    rw [stepOnce_theta_d, initState_theta, initState_theta_d, omegaTarget_p6,
      omegaNPos_p6, dt_p6, phase0_p6]
    ring
  have h1 : (stepOnce (p6 f) 0 (initState (p6 f))).theta = π := by
    rw [stepOnce_theta, h1d, initState_theta, dt_p6, phase0_p6]
    ring
  have h1pd : (stepOnce (p6 f) 0 (initState (p6 f))).psi_d = π + 4 * π ^ 3 := by
    rw [stepOnce_psi_d, h1, h1d, initState_psi, initState_psi_d, omegaTarget_p6,
      omegaNOrient_p6, dt_p6, phase0_p6]
    ring
  have h1p : (stepOnce (p6 f) 0 (initState (p6 f))).psi =
      π * 0.5 + π + 4 * π ^ 3 := by
    rw [stepOnce_psi, h1pd, initState_psi, phase0_p6, dt_p6]
    ring
  have h2d : (stepOnce (p6 f) 1 (stepOnce (p6 f) 0 (initState (p6 f)))).theta_d = π := by
    rw [stepOnce_theta_d, h1, h1d, omegaTarget_p6, omegaNPos_p6, dt_p6, phase0_p6]
    ring
  have h2pd : (stepOnce (p6 f) 1 (stepOnce (p6 f) 0 (initState (p6 f)))).psi_d =
      π + 8 * π ^ 3 - 16 * z * π ^ 4 - 16 * π ^ 5 := by
    rw [stepOnce_psi_d, stepOnce_theta, h2d, h1, h1p, h1pd,
      omegaNOrient_p6, hz, dt_p6]
    ring
  rw [stepOnce_psi, h2pd, h1p, dt_p6]
  ring

/-- Counterexample to C6 as stated: with `fluidez = 2` the damping ratio is
`clamp(0.05 + 3.9, 0.05, 2.5) = 2.5`, while `fluidez = clamp(2,0,1) = 1` gives
`2.0`; the two runs differ already in the orientation of frame 1, so
`generate_loop` does *not* behave as if `fluidez` were clamped to `[0,1]`. -/
theorem fluidez_clamp_cex :
    generate_loop (p6 2) ≠
      generate_loop { p6 2 with fluidez := clamp (p6 2).fluidez 0 1 } := by
  intro h
  have hrec : ({ p6 2 with fluidez := clamp (p6 2).fluidez 0 1 } : LoopParams) = p6 1 := by
    have hcl : clamp ((p6 2).fluidez) 0 1 = 1 := by
      rw [show (p6 2).fluidez = 2 from by norm_num [p6]]
      rw [clamp_of_gt (by norm_num) (by norm_num)]
    rw [hcl]
    rfl
  rw [hrec] at h
  have hA := orientation_p6 2 (5 / 2) zetaOrient_p6a
  have hB := orientation_p6 1 2 zetaOrient_p6b
  rw [h, hB] at hA
  have h4 : (0 : ℝ) < π ^ 4 := pow_pos Real.pi_pos 4
  linarith

end

end LoopCreator
